import Mathlib

/-!
Verification of `src/validate_traits.py`: a pandas/geopandas pipeline that
validates PROSAIL-derived plant traits against in-situ measurements.

The embedding models pandas DataFrames as lists of association-list rows over
a `Value` type (exact rationals plus the IEEE specials NaN and ±infinity that
pandas float columns produce, plus strings and booleans).  Python string
operations (`str.replace`, `str.split`, `'_'.join`, `str.startswith`) are
re-implemented over `List Char` by structural recursion so that every
definition evaluates inside the Lean kernel.

Functions of the repository's `utils` module (`plot_prediction`,
`join_with_insitu`) are not part of the sources; they are modelled from the
spec and marked as such in their doc comments.
-/

/-! ## Python string primitives -/

/-- `listStartsWith pat l` is true when `pat` is an initial segment of `l`
(Python `str.startswith` over the character lists). -/
def listStartsWith : List Char → List Char → Bool
  | [], _ => true
  | _ :: _, [] => false
  | p :: ps, c :: cs => p = c && listStartsWith ps cs

/-- Python `s.startswith(pat)`. -/
def pyStartsWith (s pat : String) : Bool :=
  listStartsWith pat.data s.data

/-- Worker for `pyReplace`, with explicit fuel (each step consumes at least
one character, so `l.length` steps suffice).  Matches Python `str.replace`:
left to right, non-overlapping, every occurrence. -/
def pyReplaceAux (pat rep : List Char) : Nat → List Char → List Char
  | 0, l => l
  | _ + 1, [] => []
  | fuel + 1, c :: cs =>
    if pat ≠ [] && listStartsWith pat (c :: cs) then
      rep ++ pyReplaceAux pat rep fuel (List.drop (pat.length - 1) cs)
    else
      c :: pyReplaceAux pat rep fuel cs

/-- Python `s.replace(pat, rep)`.  (Python's behaviour for an empty pattern,
which interleaves `rep` between the characters, is not modelled; the sources
only replace `"lai"` and `" "`.) -/
def pyReplace (s pat rep : String) : String :=
  ⟨pyReplaceAux pat.data rep.data s.data.length s.data⟩

/-- Worker for `pySplit`, with explicit fuel; `acc` holds the current piece
reversed. -/
def pySplitAux (sep : List Char) : Nat → List Char → List Char → List (List Char)
  | 0, acc, l => [acc.reverse ++ l]
  | _ + 1, acc, [] => [acc.reverse]
  | fuel + 1, acc, c :: cs =>
    if sep ≠ [] && listStartsWith sep (c :: cs) then
      acc.reverse :: pySplitAux sep fuel [] (List.drop (sep.length - 1) cs)
    else
      pySplitAux sep fuel (c :: acc) cs

/-- Python `s.split(sep)` for a non-empty separator. -/
def pySplit (s sep : String) : List String :=
  (pySplitAux sep.data s.data.length [] s.data).map String.mk

/-- Worker for `pyJoin`. -/
def pyJoinAux (sep : List Char) : List (List Char) → List Char
  | [] => []
  | [x] => x
  | x :: y :: rest => x ++ sep ++ pyJoinAux sep (y :: rest)

/-- Python `sep.join(parts)`. -/
def pyJoin (sep : String) (parts : List String) : String :=
  ⟨pyJoinAux sep.data (parts.map String.data)⟩

/-! ## Cell values

A pandas cell: an exact rational stands in for a finite float, `nan` for a
missing value (NaN or None), and `inf`/`neginf` for the two infinities that
float division by zero produces. -/

inductive Value where
  | num (q : ℚ)
  | nan
  | inf
  | neginf
  | str (s : String)
  | bool (b : Bool)
deriving DecidableEq, Repr

namespace Value

/-- pandas missing-value test (`isna`): NaN/None are missing, infinities are
not. -/
def isNA : Value → Bool
  | nan => true
  | _ => false

/-- Python `str()` of a cell, as the sources use it on the `Plot` column.
`Plot` holds strings in the source data; the rendering of the remaining
constructors follows Python (`'True'`, `'nan'`, `'inf'`) except that a
rational is printed as a rational, not as a float. -/
def pyStr : Value → String
  | str s => s
  | num q => toString q
  | bool b => if b then "True" else "False"
  | nan => "nan"
  | inf => "inf"
  | neginf => "-inf"

/-- Negation under IEEE semantics. -/
def neg : Value → Value
  | num q => num (-q)
  | nan => nan
  | inf => neginf
  | neginf => inf
  | _ => nan

/-- Addition under IEEE semantics; non-numeric operands are not exercised by
the sources and yield `nan`. -/
def add : Value → Value → Value
  | num a, num b => num (a + b)
  | inf, neginf => nan
  | neginf, inf => nan
  | inf, num _ => inf
  | num _, inf => inf
  | inf, inf => inf
  | neginf, num _ => neginf
  | num _, neginf => neginf
  | neginf, neginf => neginf
  | _, _ => nan

/-- Subtraction, via `add` and `neg`. -/
def sub (a b : Value) : Value := a.add b.neg

/-- A finite rational times a signed infinity. -/
def mulInf (q : ℚ) (pos : Bool) : Value :=
  if 0 < q then (if pos then inf else neginf)
  else if q < 0 then (if pos then neginf else inf)
  else nan

/-- Multiplication under IEEE semantics. -/
def mul : Value → Value → Value
  | num a, num b => num (a * b)
  | num a, inf => mulInf a true
  | inf, num b => mulInf b true
  | num a, neginf => mulInf a false
  | neginf, num b => mulInf b false
  | inf, inf => inf
  | inf, neginf => neginf
  | neginf, inf => neginf
  | neginf, neginf => inf
  | _, _ => nan

/-- Division under pandas (IEEE) semantics: a non-zero finite value divided
by zero is a signed infinity, `0 / 0` is NaN; no exception is ever raised. -/
def div : Value → Value → Value
  | num a, num b =>
    if b = 0 then (if 0 < a then inf else if a < 0 then neginf else nan)
    else num (a / b)
  | inf, num b => if b < 0 then neginf else inf
  | neginf, num b => if b < 0 then inf else neginf
  | num _, inf => num 0
  | num _, neginf => num 0
  | inf, inf => nan
  | inf, neginf => nan
  | neginf, inf => nan
  | neginf, neginf => nan
  | _, _ => nan

/-- Rank of the constructor, for the deterministic sort used by `groupby`. -/
def rank : Value → Nat
  | num _ => 0
  | nan => 1
  | inf => 2
  | neginf => 3
  | str _ => 4
  | bool _ => 5

/-- Strict lexicographic order on character lists by code point. -/
def charsLt : List Char → List Char → Bool
  | [], [] => false
  | [], _ :: _ => true
  | _ :: _, [] => false
  | a :: as, b :: bs =>
    if a.toNat < b.toNat then true
    else if b.toNat < a.toNat then false
    else charsLt as bs

/-- A deterministic strict order on values: by constructor rank, then by the
payload.  `groupby` sorts its keys with it (pandas sorts group keys by
default). -/
def ltB : Value → Value → Bool
  | num a, num b => a < b
  | str a, str b => charsLt a.data b.data
  | bool a, bool b => !a && b
  | a, b => a.rank < b.rank

end Value

/-! ## Rows and frames -/

/-- A row: an association list from column names to cell values, as a pandas
row (a dict-like record). -/
abbrev Row := List (String × Value)

namespace Row

/-- Look a column up in a row. -/
def get? : Row → String → Option Value
  | [], _ => none
  | p :: ps, c => if p.1 = c then some p.2 else get? ps c

/-- Look a column up, with NaN for an absent key (pandas fills missing
entries with NaN). -/
def get (r : Row) (c : String) : Value := (get? r c).getD Value.nan

/-- Set a column in a row: replace the first binding, or append a new one. -/
def set : Row → String → Value → Row
  | [], c, v => [(c, v)]
  | p :: ps, c, v => if p.1 = c then (c, v) :: ps else p :: set ps c v

end Row

/-- A pandas DataFrame: the column list plus the rows. -/
structure DataFrame where
  cols : List String
  rows : List Row
deriving DecidableEq, Repr

namespace DataFrame

/-- A column as the list of its values, one per row. -/
def col (df : DataFrame) (c : String) : List Value :=
  df.rows.map (fun r => Row.get r c)

/-- `df[c] = f(row)`: assign a column computed row-wise. -/
def assignCol (df : DataFrame) (c : String) (f : Row → Value) : DataFrame :=
  ⟨if c ∈ df.cols then df.cols else df.cols ++ [c],
   df.rows.map (fun r => Row.set r c (f r))⟩

/-- `df.drop(columns=cs)`. -/
def dropCols (df : DataFrame) (cs : List String) : DataFrame :=
  ⟨df.cols.filter (fun c => c ∉ cs),
   df.rows.map (fun r => r.filter (fun p => p.1 ∉ cs))⟩

/-- `df.dropna(subset=sub)`: keep the rows whose value is non-missing in
every column of `sub`. -/
def dropnaSubset (df : DataFrame) (sub : List String) : DataFrame :=
  ⟨df.cols, df.rows.filter (fun r => sub.all (fun c => !(Row.get r c).isNA))⟩

/-- The tuple of key values a row contributes to a merge. -/
def mergeKeyOf (keys : List String) (r : Row) : List Value :=
  keys.map (Row.get r)

/-- One combined row of a merge: the left row with the overlapping non-key
columns renamed `_x`, then the right row without its key columns and with
the overlapping columns renamed `_y` (pandas' default suffixes). -/
def mergeCombine (lcols rcols keys : List String) (lr rr : Row) : Row :=
  (lr.map (fun p => if p.1 ∈ rcols ∧ p.1 ∉ keys then (p.1 ++ "_x", p.2) else p))
  ++ ((rr.filter (fun p => p.1 ∉ keys)).map
        (fun p => if p.1 ∈ lcols then (p.1 ++ "_y", p.2) else p))

/-- `pd.merge(left, right, on=keys)`: the inner join on the key columns,
one output row per key-matched pair of input rows. -/
def pdMerge (left right : DataFrame) (keys : List String) : DataFrame :=
  ⟨(left.cols.map (fun c => if c ∈ right.cols ∧ c ∉ keys then c ++ "_x" else c))
     ++ ((right.cols.filter (fun c => c ∉ keys)).map
           (fun c => if c ∈ left.cols then c ++ "_y" else c)),
   left.rows.flatMap (fun lr =>
     (right.rows.filter (fun rr => mergeKeyOf keys rr = mergeKeyOf keys lr)).map
       (fun rr => mergeCombine left.cols right.cols keys lr rr))⟩

/-- Insert into a list kept sorted by `Value.ltB`. -/
def insertSorted (v : Value) : List Value → List Value
  | [] => [v]
  | x :: xs => if v.ltB x then v :: x :: xs else x :: insertSorted v xs

/-- Sort values by `Value.ltB` (insertion sort). -/
def sortVals (l : List Value) : List Value := l.foldr insertSorted []

/-- The group keys of `df.groupby(by=c)`: the distinct non-missing values of
the column, sorted (pandas groups with `sort=True` and drops NaN keys). -/
def groupKeys (df : DataFrame) (c : String) : List Value :=
  sortVals (((df.col c).filter (fun v => !v.isNA)).dedup)

/-- `df.groupby(by=c)`: each key paired with the sub-frame of its rows, in
key order. -/
def groupby (df : DataFrame) (c : String) : List (Value × DataFrame) :=
  (df.groupKeys c).map (fun k =>
    (k, ⟨df.cols, df.rows.filter (fun r => Row.get r c = k)⟩))

/-- `df[c].nunique()`: the number of distinct non-missing values. -/
def nuniqueCol (df : DataFrame) (c : String) : Nat :=
  (((df.col c).filter (fun v => !v.isNA)).dedup).length

end DataFrame

/-! ## Error-metric calculator (modelled from the spec) -/

/-- Sum of a list of values. -/
def sumV (l : List Value) : Value := l.foldr Value.add (Value.num 0)

/-- Mean of a list of values (pandas: the mean of an empty list is NaN,
which `0 / 0` yields here). -/
def meanV (l : List Value) : Value := (sumV l).div (Value.num l.length)

/-- The (true, predicted) pairs that enter metric computation: the two
sequences zipped row-wise, with every pair holding a missing value on either
side dropped jointly. -/
def metricPairs (tv pv : List Value) : List (Value × Value) :=
  (tv.zip pv).filter (fun q => !q.1.isNA && !q.2.isNA)

/-- Modelled from the spec: `plot_prediction` lives in the repository's
`utils` module, which is not under `src/`.  Per the spec (§4.3
Error-Metric Calculator) it takes the true and predicted sequences, drops
pairs with a missing value on either side jointly so that pairing is
preserved, and returns scatter statistics (bias, RMSE, R², count) as a
record.  R² is NaN, not an exception, when the true values have zero
variance.  The record stores the squared RMSE (`rmse_sq`): the square root
is irrational over ℚ and no claim depends on it.  The plot artifact is an
external collaborator and is not modelled. -/
def plot_prediction (tv pv : List Value) : Row :=
  let pairs := metricPairs tv pv
  let diffs := pairs.map (fun q => q.2.sub q.1)
  let tmean := meanV (pairs.map (fun q => q.1))
  let ssres := sumV (diffs.map (fun d => d.mul d))
  let sstot := sumV (pairs.map (fun q => (q.1.sub tmean).mul (q.1.sub tmean)))
  [("n", Value.num pairs.length),
   ("bias", meanV diffs),
   ("rmse_sq", meanV (diffs.map (fun d => d.mul d))),
   ("r2", if sstot = Value.num 0 then Value.nan
          else (Value.num 1).sub (ssres.div sstot))]

/-! ## The validation orchestrator `validate_data` -/

/-- A frame built from a list of records, as `pd.DataFrame([r1, r2, ...])`:
the columns are the union of the record keys. -/
def dfOfRecords (rs : List Row) : DataFrame :=
  ⟨(rs.flatMap (fun r => r.map Prod.fst)).dedup, rs⟩

/-- Everything `validate_data` writes out: the full-sample error-stats table,
the two per-macro-stage error-stats tables, the frame handed to
`bbch_confusion_matrix`, and the output file names. -/
structure ValidateOutputs where
  error_stats : DataFrame
  err_pheno_stages : DataFrame
  err_all_stages : DataFrame
  confusion_df : DataFrame
  fname_error_stats : String
  fname_errors_pheno : String
  fname_errors_all : String
deriving Repr

/-- `validate_data` of `src/validate_traits.py`, parametrised by the
macro-stage classifier `assign_stage` (the sources' `assign_macro_stages`
from `utils`, a fixed table lookup per the spec; no claim depends on its
table, so it stays a parameter).

It copies the incoming frame, drops the rows whose true-trait value is
missing, computes the full-sample statistics against the `<trait>_all` and
`<trait> (Phenology)` prediction columns, derives macro-stages from the
in-situ BBCH rating into a new column, and then runs the two
per-macro-stage stratifications grouped by the `Macro-Stage` column. -/
def validate_data (assign_stage : Value → Value) (dfIn : DataFrame)
    (trait : String) : ValidateOutputs :=
  let df := dfIn.dropnaSubset [trait]
  let error_stats_all :=
    Row.set (plot_prediction (df.col trait) (df.col (trait ++ "_all")))
      "phenology_considered" (Value.bool false)
  let error_stats_pheno :=
    Row.set (plot_prediction (df.col trait) (df.col (trait ++ " (Phenology)")))
      "phenology_considered" (Value.bool true)
  let df2 := df.assignCol "BBCH Rating (Macro-Stages)"
      (fun r => assign_stage (Row.get r "BBCH Rating"))
  let groups := df2.groupby "Macro-Stage"
  let err_pheno := groups.map (fun g =>
    Row.set (plot_prediction (g.2.col trait) (g.2.col (trait ++ " (Phenology)")))
      "phase" g.1)
  let err_all := groups.map (fun g =>
    Row.set (plot_prediction (g.2.col trait) (g.2.col (trait ++ "_all")))
      "phase" g.1)
  { error_stats := dfOfRecords [error_stats_all, error_stats_pheno]
    err_pheno_stages := dfOfRecords err_pheno
    err_all_stages := dfOfRecords err_all
    confusion_df := df2
    fname_error_stats := pyReplace trait " " "-" ++ "_error_stats.csv"
    fname_errors_pheno := pyReplace trait " " "-" ++ "_errors_pheno_phases.csv"
    fname_errors_all := pyReplace trait " " "-" ++ "_errors_pheno_phases_all.csv" }

/-! ## The `__main__` data loading and joining -/

/-- The year-2019 schema patch for the in-situ LAI table (`__main__`,
lines 180-187): inject the sentinel GDD, derive `point_id` from the first
two underscore-separated components of `Plot`, copy `parcel` from `field`,
and set the constant genotype and location. -/
def patch2019lai (df : DataFrame) : DataFrame :=
  ((((df.assignCol "gdd_cumsum" (fun _ => Value.num 999)).assignCol
      "point_id" (fun r =>
        Value.str (pyJoin "_" ((pySplit (Row.get r "Plot").pyStr "_").take 2)))).assignCol
      "parcel" (fun r => Row.get r "field")).assignCol
      "genotype" (fun _ => Value.str "Arnold")).assignCol
      "location" (fun _ => Value.str "SwissFutureFarm")

/-- The year-2019 schema patch for the in-situ CCC table (`__main__`,
lines 189-197): the LAI patch plus copying `ccc` from `CCC [g/m2]`. -/
def patch2019ccc (df : DataFrame) : DataFrame :=
  (patch2019lai df).assignCol "ccc" (fun r => Row.get r "CCC [g/m2]")

/-- The loader branch for one year's in-situ LAI table: the 2019 table is
patched, any other year's passes through unchanged. -/
def loadInsituLai (year : Int) (raw : DataFrame) : DataFrame :=
  if year = 2019 then patch2019lai raw else raw

/-- The loader branch for one year's in-situ CCC table. -/
def loadInsituCcc (year : Int) (raw : DataFrame) : DataFrame :=
  if year = 2019 then patch2019ccc raw else raw

/-- `lai_col.replace('lai', 'cab')` of the sources. -/
def cabName (c : String) : String := pyReplace c "lai" "cab"

/-- `lai_col.replace('lai', 'ccc')` of the sources. -/
def cccName (c : String) : String := pyReplace c "lai" "ccc"

/-- The composite-trait formula of `__main__` (lines 259-271): chlorophyll
per leaf area, `ccc / lai * 100`. -/
def cabOf (ccc lai : Value) : Value := (ccc.div lai).mul (Value.num 100)

/-- The in-situ side of the `cab` branch of `__main__` (lines 244-261):
merge the LAI and CCC tables on the in-situ keys, keep the left `date` and
`lai` columns, and derive `cab` from `ccc` and `lai` post-merge. -/
def cabInsitu (lai_all ccc_all : DataFrame) : DataFrame :=
  let m := lai_all.pdMerge ccc_all ["point_id", "gdd_cumsum", "parcel", "location"]
  let m := (m.assignCol "date" (fun r => Row.get r "date_x")).dropCols ["date_x", "date_y"]
  let m := (m.assignCol "lai" (fun r => Row.get r "lai_x")).dropCols ["lai_x", "lai_y"]
  m.assignCol "cab" (fun r => cabOf (Row.get r "ccc") (Row.get r "lai"))

/-- One step of the inversion-side `cab` derivation: for a `lai`-prefixed
column `c`, assign the `cab` counterpart column from the `ccc` counterpart
divided by `c`, times 100. -/
def cabStep (df : DataFrame) (c : String) : DataFrame :=
  df.assignCol (cabName c) (fun r => cabOf (Row.get r (cccName c)) (Row.get r c))

/-- The `lai`-prefixed columns of the inversion results (`__main__`,
lines 263-265). -/
def laiColumns (inv : DataFrame) : List String :=
  inv.cols.filter (fun c => pyStartsWith c "lai")

/-- The inversion side of the `cab` branch of `__main__` (lines 262-271):
for every column of the inversion results starting with `lai`, derive the
corresponding `cab` column. -/
def addCabColumns (inv : DataFrame) : DataFrame :=
  (laiColumns inv).foldl cabStep inv

/-- The merge keys the spec names for the in-situ/inversion join. -/
def joinKeys : List String := ["point_id", "gdd_cumsum", "parcel", "location", "date"]

/-- Modelled from the spec: `join_with_insitu` lives in the repository's
`utils` module, which is not under `src/`.  Per the spec (§2 Joiner) it
merges in-situ records with model predictions on the shared keys point id,
cumulative growing-degree-days, parcel, location and date.  The phenology
rating table it also receives only contributes the BBCH columns and is not
modelled. -/
def join_with_insitu (insitu inv : DataFrame) : DataFrame :=
  insitu.pdMerge inv joinKeys

/-! ## Exception propagation

The sources contain no `try`/`except`: every failure raised inside the
pipeline propagates to the interpreter, which terminates the run with a
stack trace and a non-zero exit.  The fallible steps are modelled in
`Except`, whose `bind` never recovers from an error, mirroring the absence
of any handler. -/

/-- `df[c]` / `df.dropna(subset=[c])` on a frame lacking column `c`: pandas
raises `KeyError`. -/
def checkCol (df : DataFrame) (c : String) : Except String Unit :=
  if c ∈ df.cols then Except.ok () else Except.error ("KeyError: " ++ c)

/-- Modelled from the spec: the plotting backend is an external
collaborator.  `plt.subplots(ncols=n)` requires a positive number of
columns, so the per-stage figure creation fails when the grouped frame has
no macro stages — per the spec, a merge producing zero rows is a
caller-visible failure, not silently swallowed. -/
def subplotsCheck (ncols : Nat) : Except String Unit :=
  if ncols = 0 then
    Except.error "ValueError: Number of columns must be a positive integer"
  else Except.ok ()

/-- `validate_data` with its fallible steps made explicit, in source order:
the `dropna(subset=[trait])` column access, the two prediction-column
accesses, the `BBCH Rating` access, the `Macro-Stage` access, and the
per-stage `plt.subplots` call whose column count is the number of macro
stages.  On success it returns the outputs of the pure model. -/
def validate_dataE (assign_stage : Value → Value) (dfIn : DataFrame)
    (trait : String) : Except String ValidateOutputs := do
  _ ← checkCol dfIn trait
  let df := dfIn.dropnaSubset [trait]
  _ ← checkCol df (trait ++ "_all")
  _ ← checkCol df (trait ++ " (Phenology)")
  _ ← checkCol df "BBCH Rating"
  _ ← checkCol df "Macro-Stage"
  _ ← subplotsCheck (df.nuniqueCol "Macro-Stage")
  Except.ok (validate_data assign_stage dfIn trait)

/-- One trait's run of the `__main__` loop body: join the in-situ table
with the inversion results, then validate.  An error below surfaces
unchanged — `Except.bind` has no recovery branch, as the sources have no
exception handler. -/
def runTrait (assign_stage : Value → Value) (insitu inv : DataFrame)
    (trait : String) : Except String ValidateOutputs :=
  validate_dataE assign_stage (join_with_insitu insitu inv) trait

/-! ## The heap model

`validate_data` receives its frame by reference and pandas operations with
`inplace=True` mutate the referenced frame.  A heap of frames makes the
copies (`.copy()`) and in-place mutations of the source explicit, so that
the claim that the caller's frame is never modified is a real statement. -/

/-- A heap of frames; a reference is an index. -/
abbrev Heap := List DataFrame

/-- Read a reference (an empty frame for a dangling one). -/
def Heap.get (h : Heap) (r : Nat) : DataFrame := h.getD r ⟨[], []⟩

/-- Overwrite a reference in place. -/
def Heap.put (h : Heap) (r : Nat) (df : DataFrame) : Heap := h.set r df

/-- Allocate a fresh frame, returning the new heap and the fresh
reference. -/
def Heap.alloc (h : Heap) (df : DataFrame) : Heap × Nat := (h ++ [df], h.length)

/-- `validate_data` over the heap, step for step as the source writes it:
`df = _df.copy()` allocates; `df.dropna(..., inplace=True)` mutates the
copy; `df_all = df.copy()` and `df_pheno = df.copy()` allocate; the
BBCH-derived column assignment mutates the copy again; the caller's frame
`ref` is only ever read. -/
def validate_dataS (assign_stage : Value → Value) (h0 : Heap) (ref : Nat)
    (trait : String) : Heap × ValidateOutputs :=
  let a1 := h0.alloc (h0.get ref)
  let h1 := a1.1
  let r1 := a1.2
  let h2 := h1.put r1 ((h1.get r1).dropnaSubset [trait])
  let a2 := h2.alloc (h2.get r1)
  let h3 := a2.1
  let r2 := a2.2
  let a3 := h3.alloc (h3.get r1)
  let h4 := a3.1
  let r3 := a3.2
  let error_stats_all :=
    Row.set (plot_prediction ((h4.get r2).col trait) ((h4.get r2).col (trait ++ "_all")))
      "phenology_considered" (Value.bool false)
  let error_stats_pheno :=
    Row.set (plot_prediction ((h4.get r3).col trait) ((h4.get r3).col (trait ++ " (Phenology)")))
      "phenology_considered" (Value.bool true)
  let h5 := h4.put r1 ((h4.get r1).assignCol "BBCH Rating (Macro-Stages)"
      (fun r => assign_stage (Row.get r "BBCH Rating")))
  let df2 := h5.get r1
  let groups := df2.groupby "Macro-Stage"
  let err_pheno := groups.map (fun g =>
    Row.set (plot_prediction (g.2.col trait) (g.2.col (trait ++ " (Phenology)")))
      "phase" g.1)
  let err_all := groups.map (fun g =>
    Row.set (plot_prediction (g.2.col trait) (g.2.col (trait ++ "_all")))
      "phase" g.1)
  (h5,
   { error_stats := dfOfRecords [error_stats_all, error_stats_pheno]
     err_pheno_stages := dfOfRecords err_pheno
     err_all_stages := dfOfRecords err_all
     confusion_df := df2
     fname_error_stats := pyReplace trait " " "-" ++ "_error_stats.csv"
     fname_errors_pheno := pyReplace trait " " "-" ++ "_errors_pheno_phases.csv"
     fname_errors_all := pyReplace trait " " "-" ++ "_errors_pheno_phases_all.csv" })

/-! ## Basic lemmas about rows and frames -/

namespace Row

theorem get?_set_self (r : Row) (c : String) (v : Value) :
    get? (set r c v) c = some v := by
  induction r with
  | nil => simp [set, get?]
  | cons p ps ih =>
    by_cases hp : p.1 = c
    · simp [set, hp, get?]
    · simp [set, hp, get?, ih]

theorem get?_set_ne (r : Row) (c c' : String) (v : Value) (h : c' ≠ c) :
    get? (set r c v) c' = get? r c' := by
  induction r with
  | nil => simp [set, get?, Ne.symm h]
  | cons p ps ih =>
    by_cases hp : p.1 = c
    · simp [set, hp, get?, Ne.symm h]
    · simp [set, hp, get?, ih]

@[simp] theorem get_set_self (r : Row) (c : String) (v : Value) :
    get (set r c v) c = v := by
  simp [get, get?_set_self]

theorem get_set_ne (r : Row) (c c' : String) (v : Value) (h : c' ≠ c) :
    get (set r c v) c' = get r c' := by
  simp [get, get?_set_ne _ _ _ _ h]

end Row

namespace DataFrame

@[simp] theorem rows_assignCol (df : DataFrame) (c : String) (f : Row → Value) :
    (df.assignCol c f).rows = df.rows.map (fun r => Row.set r c (f r)) := rfl

@[simp] theorem length_rows_assignCol (df : DataFrame) (c : String) (f : Row → Value) :
    (df.assignCol c f).rows.length = df.rows.length := by
  simp [assignCol]

theorem col_assignCol_ne (df : DataFrame) (c c' : String) (f : Row → Value)
    (h : c' ≠ c) : (df.assignCol c f).col c' = df.col c' := by
  simp [assignCol, col, Row.get_set_ne _ _ _ _ h]

end DataFrame

/-- `getD` through a `map`, at an index inside the list. -/
theorem getD_map_lt {α β : Type} (f : α → β) (l : List α) (i : Nat)
    (h : i < l.length) (d : β) (d' : α) :
    (l.map f).getD i d = f (l.getD i d') := by
  induction l generalizing i with
  | nil => simp at h
  | cons x xs ih =>
    cases i with
    | zero => simp
    | succ j =>
      simp only [List.map_cons, List.getD_cons_succ]
      exact ih j (by simpa using h)

/-! ## C1: joint row-wise filtering of missing pairs -/

/-- **C1.** Before statistics are computed for a trait, the pipeline first
drops the rows whose true-trait value is missing
(`df.dropna(subset=[trait])`) and the metric calculator then drops every
remaining (true, predicted) pair with a missing value on either side; the
two sequences are columns of one filtered frame, zipped row-wise, so the
surviving pairs are a sublist of the original row-wise pairs — filtering is
joint and pairing is preserved, and every pair entering metric computation
is non-missing on both sides. -/
theorem metric_pairs_nonmissing_and_paired (df0 : DataFrame)
    (trait predCol : String) :
    (∀ q ∈ metricPairs ((df0.dropnaSubset [trait]).col trait)
        ((df0.dropnaSubset [trait]).col predCol),
      q.1.isNA = false ∧ q.2.isNA = false)
    ∧ (metricPairs ((df0.dropnaSubset [trait]).col trait)
        ((df0.dropnaSubset [trait]).col predCol)).Sublist
        (df0.rows.map (fun r => (Row.get r trait, Row.get r predCol))) := by
  constructor
  · intro q hq
    have hp := List.of_mem_filter hq
    simp only [Bool.and_eq_true, Bool.not_eq_true'] at hp
    exact hp
  · have hz : ((df0.dropnaSubset [trait]).col trait).zip
        ((df0.dropnaSubset [trait]).col predCol)
        = (df0.dropnaSubset [trait]).rows.map
            (fun r => (Row.get r trait, Row.get r predCol)) := by
      simp [DataFrame.col, List.zip_map']
    have h1 : List.Sublist
        (metricPairs ((df0.dropnaSubset [trait]).col trait)
          ((df0.dropnaSubset [trait]).col predCol))
        (((df0.dropnaSubset [trait]).col trait).zip
          ((df0.dropnaSubset [trait]).col predCol)) := List.filter_sublist _
    rw [hz] at h1
    exact h1.trans (List.Sublist.map _ (List.filter_sublist _))

/-! ## C2: the full-sample error-stats table -/

/-- **C2.** For every trait of the pipeline, `validate_data` produces a
full-sample error-stats table of exactly two rows: the first computed by the
metric calculator from the `<trait>_all` prediction column with
`phenology_considered = False`, the second from the `<trait> (Phenology)`
column with `phenology_considered = True`; the table is serialised to
`<trait>_error_stats.csv` (the space-to-dash sanitisation in the file name
is the identity on the pipeline's trait names). -/
theorem validate_data_full_sample (assign_stage : Value → Value)
    (dfIn : DataFrame) (trait : String)
    (ht : trait = "lai" ∨ trait = "ccc" ∨ trait = "cab") :
    (validate_data assign_stage dfIn trait).error_stats.rows =
      [Row.set (plot_prediction ((dfIn.dropnaSubset [trait]).col trait)
          ((dfIn.dropnaSubset [trait]).col (trait ++ "_all")))
          "phenology_considered" (Value.bool false),
       Row.set (plot_prediction ((dfIn.dropnaSubset [trait]).col trait)
          ((dfIn.dropnaSubset [trait]).col (trait ++ " (Phenology)")))
          "phenology_considered" (Value.bool true)]
    ∧ (validate_data assign_stage dfIn trait).error_stats.rows.length = 2
    ∧ Row.get ((validate_data assign_stage dfIn trait).error_stats.rows.getD 0 [])
        "phenology_considered" = Value.bool false
    ∧ Row.get ((validate_data assign_stage dfIn trait).error_stats.rows.getD 1 [])
        "phenology_considered" = Value.bool true
    ∧ (validate_data assign_stage dfIn trait).fname_error_stats
        = trait ++ "_error_stats.csv" := by
  refine ⟨rfl, rfl, ?_, ?_, ?_⟩
  · show Row.get (Row.set _ _ _) _ = _
    exact Row.get_set_self _ _ _
  · show Row.get (Row.set _ _ _) _ = _
    exact Row.get_set_self _ _ _
  · rcases ht with h | h | h <;> subst h <;> rfl

/-- Witness for C2 at the trait `cab` and a small concrete joined frame. -/
theorem validate_data_full_sample_witness :
    ("cab" = "lai" ∨ "cab" = "ccc" ∨ "cab" = "cab")
    ∧ (validate_data (fun v => v)
        ⟨["cab", "cab_all", "cab (Phenology)", "BBCH Rating", "Macro-Stage"],
         [[("cab", Value.num 1), ("cab_all", Value.num 2),
           ("cab (Phenology)", Value.num 1), ("BBCH Rating", Value.num 30),
           ("Macro-Stage", Value.str "S1")]]⟩
        "cab").fname_error_stats = "cab" ++ "_error_stats.csv" :=
  ⟨by decide,
   (validate_data_full_sample (fun v => v)
      ⟨["cab", "cab_all", "cab (Phenology)", "BBCH Rating", "Macro-Stage"],
       [[("cab", Value.num 1), ("cab_all", Value.num 2),
         ("cab (Phenology)", Value.num 1), ("BBCH Rating", Value.num 30),
         ("Macro-Stage", Value.str "S1")]]⟩
      "cab" (by decide)).2.2.2.2⟩

/-! ## C3 and C10: the composite trait `cab` -/

/-- Every row of the merged in-situ table carries
`cab = ccc / lai * 100`, computed post-merge from the merged row's own
constituent values. -/
theorem cabInsitu_formula (lai_all ccc_all : DataFrame) :
    ∀ r ∈ (cabInsitu lai_all ccc_all).rows,
      Row.get r "cab" = cabOf (Row.get r "ccc") (Row.get r "lai") := by
  intro r hr
  simp only [cabInsitu, DataFrame.rows_assignCol, List.mem_map] at hr
  obtain ⟨r0, -, rfl⟩ := hr
  rw [Row.get_set_self, Row.get_set_ne _ _ _ _ (by decide),
    Row.get_set_ne _ _ _ _ (by decide)]

/-- **C10.** The `cab` derivation divides by `lai` with no guard: in any
merged in-situ row whose `lai` is zero and whose `ccc` is a non-zero finite
value, the derived true `cab` value is a signed infinity (pandas division
semantics; `Value.div` is total, no exception is raised), it is not a
missing value, and the row survives `validate_data`'s missing-value filter
`dropna(subset=['cab'])`, which removes NaN entries of the true-trait
column only. -/
theorem cab_zero_lai_is_infinite (lai_all ccc_all : DataFrame) (r : Row)
    (c : ℚ) (hr : r ∈ (cabInsitu lai_all ccc_all).rows)
    (hlai : Row.get r "lai" = Value.num 0)
    (hccc : Row.get r "ccc" = Value.num c) (hc : c ≠ 0) :
    (Row.get r "cab" = Value.inf ∨ Row.get r "cab" = Value.neginf)
    ∧ (Row.get r "cab").isNA = false
    ∧ r ∈ ((cabInsitu lai_all ccc_all).dropnaSubset ["cab"]).rows := by
  have hcab : Row.get r "cab" = cabOf (Value.num c) (Value.num 0) := by
    rw [cabInsitu_formula lai_all ccc_all r hr, hccc, hlai]
  have hfin : Row.get r "cab" = Value.inf ∨ Row.get r "cab" = Value.neginf := by
    rcases lt_or_gt_of_ne hc with hneg | hpos
    · right
      rw [hcab]
      simp only [cabOf, Value.div, if_pos rfl, if_neg (not_lt_of_gt hneg),
        if_pos hneg, Value.mul, Value.mulInf]
      norm_num
    · left
      rw [hcab]
      simp only [cabOf, Value.div, if_pos rfl, if_pos hpos, Value.mul,
        Value.mulInf]
      norm_num
  have hna : (Row.get r "cab").isNA = false := by
    rcases hfin with h | h <;> rw [h] <;> rfl
  refine ⟨hfin, hna, ?_⟩
  refine List.mem_filter.mpr ⟨hr, ?_⟩
  simp [hna]

/-- Witness frame for C10: one in-situ LAI row with `lai = 0`. -/
def wLaiZero : DataFrame :=
  ⟨["point_id", "gdd_cumsum", "parcel", "location", "date", "lai"],
   [[("point_id", Value.str "SFF_12"), ("gdd_cumsum", Value.num 999),
     ("parcel", Value.str "p"), ("location", Value.str "SwissFutureFarm"),
     ("date", Value.str "2019-06-01"), ("lai", Value.num 0)]]⟩

/-- Witness frame for C10: the matching in-situ CCC row with `ccc = 2`. -/
def wCccTwo : DataFrame :=
  ⟨["point_id", "gdd_cumsum", "parcel", "location", "date", "lai", "ccc"],
   [[("point_id", Value.str "SFF_12"), ("gdd_cumsum", Value.num 999),
     ("parcel", Value.str "p"), ("location", Value.str "SwissFutureFarm"),
     ("date", Value.str "2019-06-01"), ("lai", Value.num 0),
     ("ccc", Value.num 2)]]⟩

/-- Witness for C10: the merged row with `lai = 0`, `ccc = 2` gets an
infinite `cab` and passes the NaN filter. -/
theorem cab_zero_lai_is_infinite_witness :
    (Row.get ((cabInsitu wLaiZero wCccTwo).rows.getD 0 []) "cab" = Value.inf
      ∨ Row.get ((cabInsitu wLaiZero wCccTwo).rows.getD 0 []) "cab" = Value.neginf)
    ∧ (Row.get ((cabInsitu wLaiZero wCccTwo).rows.getD 0 []) "cab").isNA = false
    ∧ (cabInsitu wLaiZero wCccTwo).rows.getD 0 []
        ∈ ((cabInsitu wLaiZero wCccTwo).dropnaSubset ["cab"]).rows :=
  cab_zero_lai_is_infinite wLaiZero wCccTwo _ 2 (by decide) (by decide)
    (by decide) (by decide)

/-! Lemmas for the inversion-side `cab` fold. -/

theorem length_rows_cabStep (df : DataFrame) (c : String) :
    (cabStep df c).rows.length = df.rows.length := by
  simp [cabStep]

theorem length_rows_foldl_cabStep (cs : List String) (df : DataFrame) :
    (cs.foldl cabStep df).rows.length = df.rows.length := by
  induction cs generalizing df with
  | nil => rfl
  | cons c0 cs ih => rw [List.foldl_cons, ih, length_rows_cabStep]

theorem cabStep_get_ne (df : DataFrame) (c X : String) (i : Nat)
    (hX : X ≠ cabName c) (hi : i < df.rows.length) :
    Row.get ((cabStep df c).rows.getD i []) X
      = Row.get (df.rows.getD i []) X := by
  simp only [cabStep, DataFrame.rows_assignCol]
  rw [getD_map_lt _ _ _ hi _ []]
  exact Row.get_set_ne _ _ _ _ hX

theorem foldl_cabStep_get_ne (cs : List String) (df : DataFrame) (X : String)
    (i : Nat) (hi : i < df.rows.length) (hX : ∀ c ∈ cs, X ≠ cabName c) :
    Row.get ((cs.foldl cabStep df).rows.getD i []) X
      = Row.get (df.rows.getD i []) X := by
  induction cs generalizing df with
  | nil => rfl
  | cons c0 cs ih =>
    rw [List.foldl_cons]
    rw [ih (cabStep df c0) (by rw [length_rows_cabStep]; exact hi)
      (fun c hc => hX c (List.mem_cons_of_mem _ hc))]
    exact cabStep_get_ne df c0 X i (hX c0 (List.mem_cons_self _ _)) hi

theorem cabStep_get_self (df : DataFrame) (c : String) (i : Nat)
    (hi : i < df.rows.length) :
    Row.get ((cabStep df c).rows.getD i []) (cabName c)
      = cabOf (Row.get (df.rows.getD i []) (cccName c))
          (Row.get (df.rows.getD i []) c) := by
  simp only [cabStep, DataFrame.rows_assignCol]
  rw [getD_map_lt _ _ _ hi _ []]
  exact Row.get_set_self _ _ _

theorem foldl_cabStep_value (cs : List String) (df : DataFrame) (c : String)
    (i : Nat) (hc : c ∈ cs) (hnd : cs.Nodup) (hi : i < df.rows.length)
    (hA : ∀ c1 ∈ cs, ∀ c2 ∈ cs, cabName c1 ≠ c2)
    (hB : ∀ c1 ∈ cs, ∀ c2 ∈ cs, cabName c1 ≠ cccName c2)
    (hC : ∀ c1 ∈ cs, ∀ c2 ∈ cs, c1 ≠ c2 → cabName c1 ≠ cabName c2) :
    Row.get ((cs.foldl cabStep df).rows.getD i []) (cabName c)
      = cabOf (Row.get (df.rows.getD i []) (cccName c))
          (Row.get (df.rows.getD i []) c) := by
  induction cs generalizing df with
  | nil => cases hc
  | cons c0 cs ih =>
    rw [List.foldl_cons]
    rcases List.mem_cons.mp hc with rfl | hc'
    · have hnotin : c ∉ cs := (List.nodup_cons.mp hnd).1
      rw [foldl_cabStep_get_ne cs (cabStep df c) (cabName c) i
        (by rw [length_rows_cabStep]; exact hi)
        (fun c' hc' => hC c (List.mem_cons_self _ _) c'
          (List.mem_cons_of_mem _ hc') (fun he => hnotin (he ▸ hc')))]
      exact cabStep_get_self df c i hi
    · have h1 : Row.get ((cabStep df c0).rows.getD i []) (cccName c)
          = Row.get (df.rows.getD i []) (cccName c) :=
        cabStep_get_ne df c0 (cccName c) i
          (fun he => (hB c0 (List.mem_cons_self _ _) c
            (List.mem_cons_of_mem _ hc')) he.symm) hi
      have h2 : Row.get ((cabStep df c0).rows.getD i []) c
          = Row.get (df.rows.getD i []) c :=
        cabStep_get_ne df c0 c i
          (fun he => (hA c0 (List.mem_cons_self _ _) c
            (List.mem_cons_of_mem _ hc')) he.symm) hi
      rw [ih (cabStep df c0) hc' (List.nodup_cons.mp hnd).2
        (by rw [length_rows_cabStep]; exact hi)
        (fun c1 h1 c2 h2 => hA c1 (List.mem_cons_of_mem _ h1) c2
          (List.mem_cons_of_mem _ h2))
        (fun c1 h1 c2 h2 => hB c1 (List.mem_cons_of_mem _ h1) c2
          (List.mem_cons_of_mem _ h2))
        (fun c1 h1 c2 h2 hne => hC c1 (List.mem_cons_of_mem _ h1) c2
          (List.mem_cons_of_mem _ h2) hne), h1, h2]

/-- **C3.** The composite trait `cab` is computed post-merge by one and the
same formula — `ccc / lai * 100` — both for the in-situ reference values
(every row of the merged in-situ table) and for every retrieval
configuration of the inversion results: each column starting with `lai`,
paired with its `ccc` counterpart (`replace('lai', 'ccc')`), yields the
corresponding `cab` column (`replace('lai', 'cab')`).  The hypotheses state
that the inversion column names are distinct and that the generated `cab`
names collide with no source column, which holds of the repository's
configuration columns (`lai_all`, `lai (Phenology)`, ...). -/
theorem cab_same_formula (lai_all ccc_all inv : DataFrame) (r : Row)
    (c : String) (i : Nat)
    (hr : r ∈ (cabInsitu lai_all ccc_all).rows)
    (hnd : (laiColumns inv).Nodup)
    (hc : c ∈ laiColumns inv)
    (hi : i < inv.rows.length)
    (hA : ∀ c1 ∈ laiColumns inv, ∀ c2 ∈ laiColumns inv, cabName c1 ≠ c2)
    (hB : ∀ c1 ∈ laiColumns inv, ∀ c2 ∈ laiColumns inv, cabName c1 ≠ cccName c2)
    (hC : ∀ c1 ∈ laiColumns inv, ∀ c2 ∈ laiColumns inv,
      c1 ≠ c2 → cabName c1 ≠ cabName c2) :
    Row.get r "cab" = cabOf (Row.get r "ccc") (Row.get r "lai")
    ∧ Row.get ((addCabColumns inv).rows.getD i []) (cabName c)
        = cabOf (Row.get (inv.rows.getD i []) (cccName c))
            (Row.get (inv.rows.getD i []) c) :=
  ⟨cabInsitu_formula lai_all ccc_all r hr,
   foldl_cabStep_value (laiColumns inv) inv c i hc hnd hi hA hB hC⟩

/-- Witness frame for C3: inversion results with the two retrieval
configurations' `lai` and `ccc` columns. -/
def wInv : DataFrame :=
  ⟨["point_id", "lai_all", "lai (Phenology)", "ccc_all", "ccc (Phenology)"],
   [[("point_id", Value.str "SFF_12"), ("lai_all", Value.num 0),
     ("lai (Phenology)", Value.num 0), ("ccc_all", Value.num 3),
     ("ccc (Phenology)", Value.num 0)]]⟩

/-- Witness for C3 at the `lai_all` configuration of `wInv` and the merged
row of `wLaiZero`/`wCccTwo`. -/
theorem cab_same_formula_witness :
    Row.get ((cabInsitu wLaiZero wCccTwo).rows.getD 0 []) "cab"
      = cabOf (Row.get ((cabInsitu wLaiZero wCccTwo).rows.getD 0 []) "ccc")
          (Row.get ((cabInsitu wLaiZero wCccTwo).rows.getD 0 []) "lai")
    ∧ Row.get ((addCabColumns wInv).rows.getD 0 []) (cabName "lai_all")
        = cabOf (Row.get (wInv.rows.getD 0 []) (cccName "lai_all"))
            (Row.get (wInv.rows.getD 0 []) "lai_all") :=
  cab_same_formula wLaiZero wCccTwo wInv _ "lai_all" 0 (by decide) (by decide)
    (by decide) (by decide) (by decide) (by decide) (by decide)

/-! ## C6: the year-2019 schema patch -/

theorem assignCol_getD_self (df : DataFrame) (c : String) (f : Row → Value)
    (i : Nat) (hi : i < df.rows.length) :
    Row.get ((df.assignCol c f).rows.getD i []) c = f (df.rows.getD i []) := by
  simp only [DataFrame.rows_assignCol]
  rw [getD_map_lt _ _ _ hi _ []]
  exact Row.get_set_self _ _ _

theorem assignCol_getD_ne (df : DataFrame) (c X : String) (f : Row → Value)
    (i : Nat) (hX : X ≠ c) (hi : i < df.rows.length) :
    Row.get ((df.assignCol c f).rows.getD i []) X
      = Row.get (df.rows.getD i []) X := by
  simp only [DataFrame.rows_assignCol]
  rw [getD_map_lt _ _ _ hi _ []]
  exact Row.get_set_ne _ _ _ _ hX

/-- Columns of the patched LAI row, against the raw row. -/
theorem patch2019lai_gets (df : DataFrame) (i : Nat) (hi : i < df.rows.length) :
    Row.get ((patch2019lai df).rows.getD i []) "gdd_cumsum" = Value.num 999
    ∧ Row.get ((patch2019lai df).rows.getD i []) "point_id"
        = Value.str (pyJoin "_"
            ((pySplit (Row.get (df.rows.getD i []) "Plot").pyStr "_").take 2))
    ∧ Row.get ((patch2019lai df).rows.getD i []) "parcel"
        = Row.get (df.rows.getD i []) "field"
    ∧ Row.get ((patch2019lai df).rows.getD i []) "genotype" = Value.str "Arnold"
    ∧ Row.get ((patch2019lai df).rows.getD i []) "location"
        = Value.str "SwissFutureFarm"
    ∧ ∀ X, X ∉ ["gdd_cumsum", "point_id", "parcel", "genotype", "location"] →
        Row.get ((patch2019lai df).rows.getD i []) X
          = Row.get (df.rows.getD i []) X := by
  refine ⟨?_, ?_, ?_, ?_, ?_, ?_⟩
  · rw [patch2019lai,
      assignCol_getD_ne _ _ _ _ _ (by decide) (by simpa using hi),
      assignCol_getD_ne _ _ _ _ _ (by decide) (by simpa using hi),
      assignCol_getD_ne _ _ _ _ _ (by decide) (by simpa using hi),
      assignCol_getD_ne _ _ _ _ _ (by decide) (by simpa using hi),
      assignCol_getD_self _ _ _ _ hi]
  · rw [patch2019lai,
      assignCol_getD_ne _ _ _ _ _ (by decide) (by simpa using hi),
      assignCol_getD_ne _ _ _ _ _ (by decide) (by simpa using hi),
      assignCol_getD_ne _ _ _ _ _ (by decide) (by simpa using hi),
      assignCol_getD_self _ _ _ _ (by simpa using hi),
      assignCol_getD_ne _ _ _ _ _ (by decide) hi]
  · rw [patch2019lai,
      assignCol_getD_ne _ _ _ _ _ (by decide) (by simpa using hi),
      assignCol_getD_ne _ _ _ _ _ (by decide) (by simpa using hi),
      assignCol_getD_self _ _ _ _ (by simpa using hi),
      assignCol_getD_ne _ _ _ _ _ (by decide) (by simpa using hi),
      assignCol_getD_ne _ _ _ _ _ (by decide) hi]
  · rw [patch2019lai,
      assignCol_getD_ne _ _ _ _ _ (by decide) (by simpa using hi),
      assignCol_getD_self _ _ _ _ (by simpa using hi)]
  · rw [patch2019lai, assignCol_getD_self _ _ _ _ (by simpa using hi)]
  · intro X hX
    simp only [List.mem_cons, List.not_mem_nil, or_false, not_or] at hX
    obtain ⟨h1, h2, h3, h4, h5⟩ := hX
    rw [patch2019lai,
      assignCol_getD_ne _ _ _ _ _ h5 (by simpa using hi),
      assignCol_getD_ne _ _ _ _ _ h4 (by simpa using hi),
      assignCol_getD_ne _ _ _ _ _ h3 (by simpa using hi),
      assignCol_getD_ne _ _ _ _ _ h2 (by simpa using hi),
      assignCol_getD_ne _ _ _ _ _ h1 hi]

/-- Columns of the patched CCC row, against the raw row. -/
theorem patch2019ccc_gets (df : DataFrame) (i : Nat) (hi : i < df.rows.length) :
    Row.get ((patch2019ccc df).rows.getD i []) "gdd_cumsum" = Value.num 999
    ∧ Row.get ((patch2019ccc df).rows.getD i []) "point_id"
        = Value.str (pyJoin "_"
            ((pySplit (Row.get (df.rows.getD i []) "Plot").pyStr "_").take 2))
    ∧ Row.get ((patch2019ccc df).rows.getD i []) "parcel"
        = Row.get (df.rows.getD i []) "field"
    ∧ Row.get ((patch2019ccc df).rows.getD i []) "genotype" = Value.str "Arnold"
    ∧ Row.get ((patch2019ccc df).rows.getD i []) "location"
        = Value.str "SwissFutureFarm"
    ∧ Row.get ((patch2019ccc df).rows.getD i []) "ccc"
        = Row.get (df.rows.getD i []) "CCC [g/m2]"
    ∧ ∀ X, X ∉ ["gdd_cumsum", "point_id", "parcel", "genotype", "location",
        "ccc"] →
        Row.get ((patch2019ccc df).rows.getD i []) X
          = Row.get (df.rows.getD i []) X := by
  have hlai := patch2019lai_gets df i hi
  have hlen : i < (patch2019lai df).rows.length := by
    simp only [patch2019lai]
    simpa using hi
  refine ⟨?_, ?_, ?_, ?_, ?_, ?_, ?_⟩
  · rw [patch2019ccc, assignCol_getD_ne _ _ _ _ _ (by decide) hlen]
    exact hlai.1
  · rw [patch2019ccc, assignCol_getD_ne _ _ _ _ _ (by decide) hlen]
    exact hlai.2.1
  · rw [patch2019ccc, assignCol_getD_ne _ _ _ _ _ (by decide) hlen]
    exact hlai.2.2.1
  · rw [patch2019ccc, assignCol_getD_ne _ _ _ _ _ (by decide) hlen]
    exact hlai.2.2.2.1
  · rw [patch2019ccc, assignCol_getD_ne _ _ _ _ _ (by decide) hlen]
    exact hlai.2.2.2.2.1
  · rw [patch2019ccc, assignCol_getD_self _ _ _ _ hlen]
    exact hlai.2.2.2.2.2 "CCC [g/m2]" (by decide)
  · intro X hX
    simp only [List.mem_cons, List.not_mem_nil, or_false, not_or] at hX
    rw [patch2019ccc, assignCol_getD_ne _ _ _ _ _ hX.2.2.2.2.2 hlen]
    exact hlai.2.2.2.2.2 X (by
      simp only [List.mem_cons, List.not_mem_nil, or_false, not_or]
      exact ⟨hX.1, hX.2.1, hX.2.2.1, hX.2.2.2.1, hX.2.2.2.2.1⟩)

/-- **C6.** For year-2019 in-situ tables, and only for those, the loader
patches the schema before any merge: every row of the patched LAI table
carries the sentinel `gdd_cumsum = 999`, a `point_id` derived from the
first two underscore-separated components of `Plot` (for a string-valued
`Plot`, `Value.pyStr` is the identity), `parcel` copied from `field`,
`genotype = 'Arnold'`, `location = 'SwissFutureFarm'`, and every other
column unchanged; the patched CCC table additionally carries `ccc` copied
from `CCC [g/m2]`; a table of any other year passes through unchanged. -/
theorem insitu_2019_schema_patch (year : Int) (lai ccc : DataFrame) (i : Nat)
    (hiL : i < lai.rows.length) (hiC : i < ccc.rows.length) :
    (year = 2019 →
      Row.get ((loadInsituLai year lai).rows.getD i []) "gdd_cumsum"
          = Value.num 999
      ∧ (∀ s, Row.get (lai.rows.getD i []) "Plot" = Value.str s →
          Row.get ((loadInsituLai year lai).rows.getD i []) "point_id"
            = Value.str (pyJoin "_" ((pySplit s "_").take 2)))
      ∧ Row.get ((loadInsituLai year lai).rows.getD i []) "parcel"
          = Row.get (lai.rows.getD i []) "field"
      ∧ Row.get ((loadInsituLai year lai).rows.getD i []) "genotype"
          = Value.str "Arnold"
      ∧ Row.get ((loadInsituLai year lai).rows.getD i []) "location"
          = Value.str "SwissFutureFarm"
      ∧ ∀ X, X ∉ ["gdd_cumsum", "point_id", "parcel", "genotype", "location"] →
          Row.get ((loadInsituLai year lai).rows.getD i []) X
            = Row.get (lai.rows.getD i []) X)
    ∧ (year = 2019 →
      Row.get ((loadInsituCcc year ccc).rows.getD i []) "gdd_cumsum"
          = Value.num 999
      ∧ Row.get ((loadInsituCcc year ccc).rows.getD i []) "ccc"
          = Row.get (ccc.rows.getD i []) "CCC [g/m2]"
      ∧ Row.get ((loadInsituCcc year ccc).rows.getD i []) "location"
          = Value.str "SwissFutureFarm")
    ∧ (year ≠ 2019 →
        loadInsituLai year lai = lai ∧ loadInsituCcc year ccc = ccc) := by
  refine ⟨?_, ?_, ?_⟩
  · intro hy
    have h := patch2019lai_gets lai i hiL
    rw [loadInsituLai, if_pos hy]
    exact ⟨h.1,
      fun s hs => by rw [h.2.1, hs]; rfl,
      h.2.2.1, h.2.2.2.1, h.2.2.2.2.1, h.2.2.2.2.2⟩
  · intro hy
    have h := patch2019ccc_gets ccc i hiC
    rw [loadInsituCcc, if_pos hy]
    exact ⟨h.1, h.2.2.2.2.2.1, h.2.2.2.2.1⟩
  · intro hy
    rw [loadInsituLai, if_neg hy, loadInsituCcc, if_neg hy]
    exact ⟨rfl, rfl⟩

/-- Witness frame for C6: a raw 2019 LAI table with a string `Plot`. -/
def wRaw2019 : DataFrame :=
  ⟨["Plot", "field", "date", "lai", "CCC [g/m2]"],
   [[("Plot", Value.str "SFF_12_a"), ("field", Value.str "F1"),
     ("date", Value.str "2019-06-01"), ("lai", Value.num 3),
     ("CCC [g/m2]", Value.num 1)]]⟩

/-- Witness for C6, at year 2019 (patched) and year 2022 (pass-through). -/
theorem insitu_2019_schema_patch_witness :
    (Row.get ((loadInsituLai 2019 wRaw2019).rows.getD 0 []) "gdd_cumsum"
        = Value.num 999
     ∧ Row.get ((loadInsituLai 2019 wRaw2019).rows.getD 0 []) "point_id"
        = Value.str (pyJoin "_" ((pySplit "SFF_12_a" "_").take 2)))
    ∧ loadInsituLai 2022 wRaw2019 = wRaw2019 :=
  ⟨⟨((insitu_2019_schema_patch 2019 wRaw2019 wRaw2019 0 (by decide)
        (by decide)).1 rfl).1,
    ((insitu_2019_schema_patch 2019 wRaw2019 wRaw2019 0 (by decide)
        (by decide)).1 rfl).2.1 "SFF_12_a" (by decide)⟩,
   ((insitu_2019_schema_patch 2022 wRaw2019 wRaw2019 0 (by decide)
        (by decide)).2.2 (by decide)).1⟩

/-! ## C4 and C9: the per-macro-stage stratifications -/

theorem insertSorted_perm (v : Value) (l : List Value) :
    (DataFrame.insertSorted v l).Perm (v :: l) := by
  induction l with
  | nil => exact List.Perm.refl _
  | cons x xs ih =>
    rw [DataFrame.insertSorted]
    by_cases h : v.ltB x
    · rw [if_pos h]
    · rw [if_neg h]
      exact (ih.cons x).trans (List.Perm.swap v x xs)

theorem sortVals_perm (l : List Value) : (DataFrame.sortVals l).Perm l := by
  induction l with
  | nil => exact List.Perm.refl _
  | cons x xs ih =>
    exact (insertSorted_perm x (DataFrame.sortVals xs)).trans (ih.cons x)

/-- The group keys are exactly the distinct non-missing values of the
grouping column. -/
theorem mem_groupKeys (df : DataFrame) (c : String) (v : Value) :
    v ∈ df.groupKeys c ↔ (v.isNA = false ∧ v ∈ df.col c) := by
  rw [DataFrame.groupKeys, (sortVals_perm _).mem_iff, List.mem_dedup,
    List.mem_filter]
  simp [Bool.not_eq_true', and_comm]

theorem groupKeys_nodup (df : DataFrame) (c : String) :
    (df.groupKeys c).Nodup :=
  (sortVals_perm _).nodup_iff.mpr (List.nodup_dedup _)

theorem length_groupKeys (df : DataFrame) (c : String) :
    (df.groupKeys c).length = df.nuniqueCol c :=
  (sortVals_perm _).length_eq

/-- Group keys only look at the grouping column, so assigning a different
column leaves them unchanged. -/
theorem groupKeys_assignCol_ne (df : DataFrame) (c c' : String)
    (f : Row → Value) (h : c' ≠ c) :
    (df.assignCol c f).groupKeys c' = df.groupKeys c' := by
  rw [DataFrame.groupKeys, DataFrame.groupKeys,
    DataFrame.col_assignCol_ne _ _ _ _ h]

theorem nuniqueCol_assignCol_ne (df : DataFrame) (c c' : String)
    (f : Row → Value) (h : c' ≠ c) :
    (df.assignCol c f).nuniqueCol c' = df.nuniqueCol c' := by
  rw [DataFrame.nuniqueCol, DataFrame.nuniqueCol,
    DataFrame.col_assignCol_ne _ _ _ _ h]

/-- The frame `validate_data` groups (the source's `df` at line 99): the
NaN-filtered frame with the BBCH-derived macro-stage column assigned. -/
def stagedFrame (assign_stage : Value → Value) (dfIn : DataFrame)
    (trait : String) : DataFrame :=
  (dfIn.dropnaSubset [trait]).assignCol "BBCH Rating (Macro-Stages)"
    (fun r => assign_stage (Row.get r "BBCH Rating"))

/-- The `phase` tags of a per-stage stats table are the group keys. -/
theorem map_phase_stage_table (df : DataFrame) (trait pred : String) :
    ((df.groupby "Macro-Stage").map (fun g =>
        Row.set (plot_prediction (g.2.col trait) (g.2.col pred)) "phase" g.1)).map
      (fun r => Row.get r "phase") = df.groupKeys "Macro-Stage" := by
  rw [DataFrame.groupby, List.map_map, List.map_map]
  simp [Function.comp_def]

/-- **C4.** `validate_data` runs exactly two per-macro-stage
stratifications — one from the `<trait> (Phenology)` column, one from the
`<trait>_all` column — over the same `groupby` of the filtered frame: each
produces exactly one error-stats row per distinct (non-missing) macro
stage of the filtered table, tagged with `phase` equal to the stage label,
and both iterate the macro stages in the same stable group order (both
`phase` sequences equal the sorted, duplicate-free group-key list). -/
theorem validate_data_stage_strats (assign_stage : Value → Value)
    (dfIn : DataFrame) (trait : String) :
    (validate_data assign_stage dfIn trait).err_pheno_stages.rows
      = ((stagedFrame assign_stage dfIn trait).groupby "Macro-Stage").map
          (fun g => Row.set
            (plot_prediction (g.2.col trait) (g.2.col (trait ++ " (Phenology)")))
            "phase" g.1)
    ∧ (validate_data assign_stage dfIn trait).err_all_stages.rows
      = ((stagedFrame assign_stage dfIn trait).groupby "Macro-Stage").map
          (fun g => Row.set
            (plot_prediction (g.2.col trait) (g.2.col (trait ++ "_all")))
            "phase" g.1)
    ∧ (validate_data assign_stage dfIn trait).err_pheno_stages.rows.map
        (fun r => Row.get r "phase")
      = (dfIn.dropnaSubset [trait]).groupKeys "Macro-Stage"
    ∧ (validate_data assign_stage dfIn trait).err_all_stages.rows.map
        (fun r => Row.get r "phase")
      = (dfIn.dropnaSubset [trait]).groupKeys "Macro-Stage"
    ∧ ((dfIn.dropnaSubset [trait]).groupKeys "Macro-Stage").Nodup
    ∧ (∀ v, v ∈ (dfIn.dropnaSubset [trait]).groupKeys "Macro-Stage"
        ↔ (v.isNA = false ∧ v ∈ (dfIn.dropnaSubset [trait]).col "Macro-Stage"))
    ∧ (validate_data assign_stage dfIn trait).err_pheno_stages.rows.length
        = (dfIn.dropnaSubset [trait]).nuniqueCol "Macro-Stage"
    ∧ (validate_data assign_stage dfIn trait).err_all_stages.rows.length
        = (dfIn.dropnaSubset [trait]).nuniqueCol "Macro-Stage" := by
  have hks : (stagedFrame assign_stage dfIn trait).groupKeys "Macro-Stage"
      = (dfIn.dropnaSubset [trait]).groupKeys "Macro-Stage" :=
    groupKeys_assignCol_ne _ _ _ _ (by decide)
  have hrows_p : (validate_data assign_stage dfIn trait).err_pheno_stages.rows
      = ((stagedFrame assign_stage dfIn trait).groupby "Macro-Stage").map
          (fun g => Row.set
            (plot_prediction (g.2.col trait) (g.2.col (trait ++ " (Phenology)")))
            "phase" g.1) := rfl
  have hrows_a : (validate_data assign_stage dfIn trait).err_all_stages.rows
      = ((stagedFrame assign_stage dfIn trait).groupby "Macro-Stage").map
          (fun g => Row.set
            (plot_prediction (g.2.col trait) (g.2.col (trait ++ "_all")))
            "phase" g.1) := rfl
  have hlen : ∀ pred : String,
      (((stagedFrame assign_stage dfIn trait).groupby "Macro-Stage").map
        (fun g => Row.set (plot_prediction (g.2.col trait) (g.2.col pred))
          "phase" g.1)).length
      = (dfIn.dropnaSubset [trait]).nuniqueCol "Macro-Stage" := by
    intro pred
    rw [List.length_map, DataFrame.groupby, List.length_map, length_groupKeys,
      stagedFrame, nuniqueCol_assignCol_ne _ _ _ _ (by decide)]
  refine ⟨hrows_p, hrows_a, ?_, ?_, ?_, ?_, ?_, ?_⟩
  · rw [hrows_p, map_phase_stage_table, hks]
  · rw [hrows_a, map_phase_stage_table, hks]
  · exact groupKeys_nodup _ _
  · exact fun v => mem_groupKeys _ _ v
  · rw [hrows_p]
    exact hlen _
  · rw [hrows_a]
    exact hlen _

/-- Filtering a mapped list is mapping the filtered list. -/
theorem filter_map_comm {α β : Type} (f : α → β) (p : β → Bool) (l : List α) :
    (l.map f).filter p = (l.filter (fun a => p (f a))).map f := by
  induction l with
  | nil => rfl
  | cons x xs ih =>
    by_cases h : p (f x)
    · simp [List.filter_cons, h, ih]
    · simp [List.filter_cons, h, ih]

/-- A stage sub-frame's column of any name other than the BBCH-derived one
reads the same values whether or not that derived column was assigned. -/
theorem staged_group_col (assign_stage : Value → Value) (dfIn : DataFrame)
    (trait : String) (k : Value) (X : String)
    (hX : X ≠ "BBCH Rating (Macro-Stages)") :
    ((stagedFrame assign_stage dfIn trait).rows.filter
        (fun r => Row.get r "Macro-Stage" = k)).map (fun r => Row.get r X)
      = ((dfIn.dropnaSubset [trait]).rows.filter
          (fun r => Row.get r "Macro-Stage" = k)).map (fun r => Row.get r X) := by
  rw [stagedFrame, DataFrame.rows_assignCol, filter_map_comm, List.map_map]
  refine congrArg₂ List.map (funext fun r => ?_) (List.filter_congr fun r _ => ?_)
  · exact Row.get_set_ne _ _ _ _ hX
  · simp only [decide_eq_decide]
    rw [Row.get_set_ne _ _ _ _ (by decide)]

/-- **C9.** The per-macro-stage stratifications group by the pre-existing
`Macro-Stage` column (the retrieval-derived stage), not by the
`BBCH Rating (Macro-Stages)` column `validate_data` computes immediately
beforehand: both per-stage error-stats tables are unchanged under an
arbitrary replacement of the BBCH classifier, while the classifier-derived
column is created — it is a column of the frame handed to the confusion
matrix, holding the classifier applied to the in-situ BBCH rating.  The
hypotheses only rule out a trait column named like the derived column, true
of every trait of the pipeline. -/
theorem stage_grouping_ignores_bbch_stages (f g : Value → Value)
    (dfIn : DataFrame) (trait : String)
    (h1 : trait ≠ "BBCH Rating (Macro-Stages)")
    (h2 : trait ++ " (Phenology)" ≠ "BBCH Rating (Macro-Stages)")
    (h3 : trait ++ "_all" ≠ "BBCH Rating (Macro-Stages)") :
    (validate_data f dfIn trait).err_pheno_stages
      = (validate_data g dfIn trait).err_pheno_stages
    ∧ (validate_data f dfIn trait).err_all_stages
      = (validate_data g dfIn trait).err_all_stages
    ∧ (validate_data f dfIn trait).confusion_df.col "BBCH Rating (Macro-Stages)"
      = (dfIn.dropnaSubset [trait]).rows.map
          (fun r => f (Row.get r "BBCH Rating")) := by
  have key : ∀ (a : Value → Value) (pred : String),
      pred ≠ "BBCH Rating (Macro-Stages)" →
      ((stagedFrame a dfIn trait).groupby "Macro-Stage").map
        (fun gr => Row.set (plot_prediction (gr.2.col trait) (gr.2.col pred))
          "phase" gr.1)
      = ((dfIn.dropnaSubset [trait]).groupKeys "Macro-Stage").map
          (fun k => Row.set (plot_prediction
            (((dfIn.dropnaSubset [trait]).rows.filter
                (fun r => Row.get r "Macro-Stage" = k)).map (fun r => Row.get r trait))
            (((dfIn.dropnaSubset [trait]).rows.filter
                (fun r => Row.get r "Macro-Stage" = k)).map (fun r => Row.get r pred)))
            "phase" k) := by
    intro a pred hpred
    have hks : (stagedFrame a dfIn trait).groupKeys "Macro-Stage"
        = (dfIn.dropnaSubset [trait]).groupKeys "Macro-Stage" :=
      groupKeys_assignCol_ne _ _ _ _ (by decide)
    rw [DataFrame.groupby, List.map_map, hks]
    refine List.map_congr_left fun k _ => ?_
    simp only [Function.comp_def, DataFrame.col]
    rw [staged_group_col a dfIn trait k trait h1,
      staged_group_col a dfIn trait k pred hpred]
  refine ⟨?_, ?_, ?_⟩
  · exact congrArg dfOfRecords ((key f _ h2).trans (key g _ h2).symm)
  · exact congrArg dfOfRecords ((key f _ h3).trans (key g _ h3).symm)
  · show ((dfIn.dropnaSubset [trait]).assignCol "BBCH Rating (Macro-Stages)"
        (fun r => f (Row.get r "BBCH Rating"))).col "BBCH Rating (Macro-Stages)" = _
    rw [DataFrame.col, DataFrame.rows_assignCol, List.map_map]
    exact List.map_congr_left fun r _ => Row.get_set_self _ _ _

/-- Witness for C9: two different classifiers give the same per-stage
tables on a concrete frame. -/
theorem stage_grouping_ignores_bbch_stages_witness :
    (validate_data (fun _ => Value.str "early")
        ⟨["cab", "cab_all", "cab (Phenology)", "BBCH Rating", "Macro-Stage"],
         [[("cab", Value.num 1), ("cab_all", Value.num 2),
           ("cab (Phenology)", Value.num 1), ("BBCH Rating", Value.num 30),
           ("Macro-Stage", Value.str "S1")]]⟩ "cab").err_pheno_stages
      = (validate_data (fun _ => Value.str "late")
        ⟨["cab", "cab_all", "cab (Phenology)", "BBCH Rating", "Macro-Stage"],
         [[("cab", Value.num 1), ("cab_all", Value.num 2),
           ("cab (Phenology)", Value.num 1), ("BBCH Rating", Value.num 30),
           ("Macro-Stage", Value.str "S1")]]⟩ "cab").err_pheno_stages :=
  (stage_grouping_ignores_bbch_stages (fun _ => Value.str "early")
    (fun _ => Value.str "late")
    ⟨["cab", "cab_all", "cab (Phenology)", "BBCH Rating", "Macro-Stage"],
     [[("cab", Value.num 1), ("cab_all", Value.num 2),
       ("cab (Phenology)", Value.num 1), ("BBCH Rating", Value.num 30),
       ("Macro-Stage", Value.str "S1")]]⟩ "cab"
    (by decide) (by decide) (by decide)).1

/-! ## C5: row count of the in-situ/inversion join -/

theorem length_flatMap_eq_sum {α β : Type} (f : α → List β) (l : List α) :
    (l.flatMap f).length = (l.map (fun a => (f a).length)).sum := by
  induction l with
  | nil => rfl
  | cons x t ih => simp [List.flatMap_cons, ih]

/-- The rows of an inner merge, counted per left row. -/
theorem pdMerge_rows_length (L R : DataFrame) (ks : List String) :
    (L.pdMerge R ks).rows.length
      = (L.rows.map (fun lr => (R.rows.filter (fun rr =>
          DataFrame.mergeKeyOf ks rr = DataFrame.mergeKeyOf ks lr)).length)).sum := by
  simp [DataFrame.pdMerge, length_flatMap_eq_sum, Function.comp_def]

/-- In a list with duplicate-free keys, at most one element carries any
given key. -/
theorem countKey_le_one {α β : Type} [DecidableEq β] (key : α → β)
    (l : List α) (hnd : (l.map key).Nodup) (k : β) :
    (l.filter (fun x => key x = k)).length ≤ 1 := by
  induction l with
  | nil => simp
  | cons x t ih =>
    simp only [List.map_cons, List.nodup_cons] at hnd
    by_cases hx : key x = k
    · have ht : t.filter (fun y => decide (key y = k)) = [] := by
        refine List.filter_eq_nil_iff.mpr fun y hy => ?_
        simp only [decide_eq_true_eq]
        intro hk
        exact hnd.1 (List.mem_map.mpr ⟨y, hy, by rw [hk, hx]⟩)
      simp [List.filter_cons, hx, ht]
    · simp only [List.filter_cons, decide_eq_true_eq, hx, if_false]
      exact ih hnd.2

theorem sum_le_length_of_le_one {α : Type} (f : α → Nat) (l : List α)
    (h : ∀ a ∈ l, f a ≤ 1) : (l.map f).sum ≤ l.length := by
  induction l with
  | nil => simp
  | cons x t ih =>
    simp only [List.map_cons, List.sum_cons, List.length_cons]
    have := h x (List.mem_cons_self _ _)
    have := ih fun a ha => h a (List.mem_cons_of_mem _ ha)
    omega

theorem length_filter_add_length_filter_not {α : Type} (l : List α)
    (p : α → Bool) :
    (l.filter p).length + (l.filter (fun a => !p a)).length = l.length := by
  induction l with
  | nil => rfl
  | cons x t ih =>
    by_cases hx : p x <;> simp [List.filter_cons, hx] <;> omega

/-- With duplicate-free keys on the left, the total number of key-matched
pairs is at most the length of the right list. -/
theorem sum_counts_le_right {α β : Type} [DecidableEq β] (key : α → β)
    (L : List α) (R : List α) (hnd : (L.map key).Nodup) :
    (L.map (fun lr => (R.filter (fun rr => key rr = key lr)).length)).sum
      ≤ R.length := by
  induction L generalizing R with
  | nil => simp
  | cons lr L ih =>
    simp only [List.map_cons, List.sum_cons, List.nodup_cons] at hnd ⊢
    have hsplit := length_filter_add_length_filter_not R
      (fun rr => key rr = key lr)
    have hrest : (L.map (fun lr' => (R.filter (fun rr =>
        key rr = key lr')).length)).sum
        = (L.map (fun lr' => ((R.filter (fun rr => !decide (key rr = key lr))).filter
            (fun rr => key rr = key lr')).length)).sum := by
      refine congrArg List.sum (List.map_congr_left fun lr' hlr' => ?_)
      have hne : key lr' ≠ key lr := by
        intro he
        exact hnd.1 (List.mem_map.mpr ⟨lr', hlr', he⟩)
      rw [List.filter_filter]
      refine congrArg List.length (List.filter_congr fun rr _ => ?_)
      by_cases hk : key rr = key lr'
      · simp [hk, hne]
      · simp [hk]
    rw [hrest]
    have := ih (R.filter (fun rr => !decide (key rr = key lr))) hnd.2
    omega

/-- The bound of the spec holds when the join keys identify rows uniquely
in both tables, and the joined table is non-empty when some key tuple
occurs in both. -/
theorem pdMerge_rowcount (L R : DataFrame) (ks : List String)
    (hL : (L.rows.map (DataFrame.mergeKeyOf ks)).Nodup)
    (hR : (R.rows.map (DataFrame.mergeKeyOf ks)).Nodup) :
    (L.pdMerge R ks).rows.length ≤ min L.rows.length R.rows.length
    ∧ ((∃ lr ∈ L.rows, ∃ rr ∈ R.rows,
        DataFrame.mergeKeyOf ks rr = DataFrame.mergeKeyOf ks lr) →
      0 < (L.pdMerge R ks).rows.length) := by
  constructor
  · rw [pdMerge_rows_length]
    refine le_min ?_ ?_
    · exact sum_le_length_of_le_one _ _ fun lr _ =>
        countKey_le_one (DataFrame.mergeKeyOf ks) R.rows hR _
    · exact sum_counts_le_right (DataFrame.mergeKeyOf ks) L.rows R.rows hL
  · rintro ⟨lr, hlr, rr, hrr, hk⟩
    refine List.length_pos.mpr (List.ne_nil_of_mem (a :=
      DataFrame.mergeCombine L.cols R.cols ks lr rr) ?_)
    show _ ∈ (L.pdMerge R ks).rows
    simp only [DataFrame.pdMerge, List.mem_flatMap]
    exact ⟨lr, hlr, List.mem_map.mpr
      ⟨rr, List.mem_filter.mpr ⟨hrr, by simpa using hk⟩, rfl⟩⟩

/-- Counterexample to C5 as stated: an inner merge with a duplicated key
tuple on both sides yields more rows than either input (4 > min 2 2). -/
theorem join_rowcount_cex :
    ¬ ((join_with_insitu
        ⟨["point_id", "gdd_cumsum", "parcel", "location", "date", "lai"],
         [[("point_id", Value.str "a"), ("gdd_cumsum", Value.num 1),
           ("parcel", Value.str "p"), ("location", Value.str "l"),
           ("date", Value.str "d"), ("lai", Value.num 2)],
          [("point_id", Value.str "a"), ("gdd_cumsum", Value.num 1),
           ("parcel", Value.str "p"), ("location", Value.str "l"),
           ("date", Value.str "d"), ("lai", Value.num 3)]]⟩
        ⟨["point_id", "gdd_cumsum", "parcel", "location", "date", "lai_all"],
         [[("point_id", Value.str "a"), ("gdd_cumsum", Value.num 1),
           ("parcel", Value.str "p"), ("location", Value.str "l"),
           ("date", Value.str "d"), ("lai_all", Value.num 4)],
          [("point_id", Value.str "a"), ("gdd_cumsum", Value.num 1),
           ("parcel", Value.str "p"), ("location", Value.str "l"),
           ("date", Value.str "d"), ("lai_all", Value.num 5)]]⟩).rows.length
      ≤ min 2 2) := by decide

/-- **C5 (amended).** When the join keys identify each in-situ row and each
inversion row uniquely, the joined table has at most
min(in-situ rows, inversion rows) rows — an inner merge with duplicated
key tuples can exceed that bound, so the uniqueness hypothesis is
necessary — and the joined table is non-empty whenever the two tables
share at least one key tuple (valid input data). -/
theorem join_rowcount_bound (insitu inv : DataFrame)
    (hL : (insitu.rows.map (DataFrame.mergeKeyOf joinKeys)).Nodup)
    (hR : (inv.rows.map (DataFrame.mergeKeyOf joinKeys)).Nodup) :
    (join_with_insitu insitu inv).rows.length
      ≤ min insitu.rows.length inv.rows.length
    ∧ ((∃ lr ∈ insitu.rows, ∃ rr ∈ inv.rows,
        DataFrame.mergeKeyOf joinKeys rr = DataFrame.mergeKeyOf joinKeys lr) →
      0 < (join_with_insitu insitu inv).rows.length) :=
  pdMerge_rowcount insitu inv joinKeys hL hR

/-- Witness frame for C5: one in-situ row. -/
def wJoinL : DataFrame :=
  ⟨["point_id", "gdd_cumsum", "parcel", "location", "date", "cab"],
   [[("point_id", Value.str "a"), ("gdd_cumsum", Value.num 1),
     ("parcel", Value.str "p"), ("location", Value.str "l"),
     ("date", Value.str "d"), ("cab", Value.num 7)]]⟩

/-- Witness frame for C5: one inversion row with the same key tuple. -/
def wJoinR : DataFrame :=
  ⟨["point_id", "gdd_cumsum", "parcel", "location", "date", "cab_all"],
   [[("point_id", Value.str "a"), ("gdd_cumsum", Value.num 1),
     ("parcel", Value.str "p"), ("location", Value.str "l"),
     ("date", Value.str "d"), ("cab_all", Value.num 8)]]⟩

/-- Witness for C5: one matching row on each side, unique keys — the join
has at most (and, the key tuple being shared, at least) one row. -/
theorem join_rowcount_bound_witness :
    (join_with_insitu wJoinL wJoinR).rows.length
      ≤ min wJoinL.rows.length wJoinR.rows.length
    ∧ ((∃ lr ∈ wJoinL.rows, ∃ rr ∈ wJoinR.rows,
        DataFrame.mergeKeyOf joinKeys rr = DataFrame.mergeKeyOf joinKeys lr) →
      0 < (join_with_insitu wJoinL wJoinR).rows.length) :=
  join_rowcount_bound wJoinL wJoinR (by decide) (by decide)

/-! ## C7: failures surface as uncaught errors -/

/-- A successful validation run certifies that the trait column was present
and that the grouped frame had at least one macro stage. -/
theorem validate_dataE_ok_inv (assign_stage : Value → Value)
    (dfIn : DataFrame) (trait : String) (out : ValidateOutputs)
    (h : validate_dataE assign_stage dfIn trait = Except.ok out) :
    trait ∈ dfIn.cols
    ∧ (dfIn.dropnaSubset [trait]).nuniqueCol "Macro-Stage" ≠ 0 := by
  by_cases h1 : trait ∈ dfIn.cols
  · refine ⟨h1, ?_⟩
    intro h0
    by_cases h2 : trait ++ "_all" ∈ (dfIn.dropnaSubset [trait]).cols <;>
      by_cases h3 : trait ++ " (Phenology)" ∈ (dfIn.dropnaSubset [trait]).cols <;>
      by_cases h4 : "BBCH Rating" ∈ (dfIn.dropnaSubset [trait]).cols <;>
      by_cases h5 : "Macro-Stage" ∈ (dfIn.dropnaSubset [trait]).cols <;>
      simp [validate_dataE, checkCol, subplotsCheck, h1, h2, h3, h4, h5, h0,
        Except.bind, bind] at h
  · simp [validate_dataE, checkCol, h1, Except.bind, bind] at h

/-- **C7.** A merge producing zero rows, or a missing expected column, is a
caller-visible failure: the run of a trait returns an error (an uncaught
exception terminating the run, modelled in `Except`), every error of the
validation step propagates unchanged through the run (`Except.bind` has no
recovery branch, as the sources contain no `try`/`except`), and a
successful run certifies a non-empty join with the trait column present —
no partial-result recovery exists. -/
theorem pipeline_errors_surface (assign_stage : Value → Value)
    (insitu inv : DataFrame) (trait : String) :
    ((join_with_insitu insitu inv).rows = [] →
      ∃ e, runTrait assign_stage insitu inv trait = Except.error e)
    ∧ (trait ∉ (join_with_insitu insitu inv).cols →
      ∃ e, runTrait assign_stage insitu inv trait = Except.error e)
    ∧ (∀ e, validate_dataE assign_stage (join_with_insitu insitu inv) trait
        = Except.error e →
      runTrait assign_stage insitu inv trait = Except.error e)
    ∧ (∀ out, runTrait assign_stage insitu inv trait = Except.ok out →
      (join_with_insitu insitu inv).rows ≠ []
      ∧ trait ∈ (join_with_insitu insitu inv).cols) := by
  have hnun : (join_with_insitu insitu inv).rows = [] →
      ((join_with_insitu insitu inv).dropnaSubset [trait]).nuniqueCol
        "Macro-Stage" = 0 := by
    intro hrows
    simp [DataFrame.dropnaSubset, hrows, DataFrame.nuniqueCol, DataFrame.col]
  refine ⟨?_, ?_, fun e h => h, ?_⟩
  · intro hrows
    cases hres : runTrait assign_stage insitu inv trait with
    | error e => exact ⟨e, rfl⟩
    | ok out =>
      exact absurd (hnun hrows)
        (validate_dataE_ok_inv assign_stage _ trait out hres).2
  · intro hcol
    cases hres : runTrait assign_stage insitu inv trait with
    | error e => exact ⟨e, rfl⟩
    | ok out =>
      exact absurd (validate_dataE_ok_inv assign_stage _ trait out hres).1 hcol
  · intro out hok
    have hinv := validate_dataE_ok_inv assign_stage _ trait out hok
    exact ⟨fun hrows => hinv.2 (hnun hrows), hinv.1⟩

/-! ## C8: the caller's frame is never mutated -/

theorem Heap.get_append_self (h : Heap) (d : DataFrame) :
    Heap.get (h ++ [d]) h.length = d := by
  induction h with
  | nil => rfl
  | cons x t ih => simp only [List.cons_append, List.length_cons, Heap.get,
      List.getD_cons_succ] at ih ⊢; exact ih

theorem Heap.get_append_lt (h : Heap) (d : DataFrame) (j : Nat)
    (hj : j < h.length) : Heap.get (h ++ [d]) j = Heap.get h j := by
  induction h generalizing j with
  | nil => cases hj
  | cons x t ih =>
    cases j with
    | zero => rfl
    | succ m => simpa [Heap.get, List.getD] using ih m (by simpa using hj)

theorem Heap.get_put_self (h : Heap) (r : Nat) (d : DataFrame)
    (hr : r < h.length) : Heap.get (Heap.put h r d) r = d := by
  induction h generalizing r with
  | nil => cases hr
  | cons x t ih =>
    cases r with
    | zero => rfl
    | succ m => simpa [Heap.get, Heap.put, List.getD] using ih m (by simpa using hr)

theorem Heap.get_put_ne (h : Heap) (r j : Nat) (d : DataFrame) (hne : j ≠ r) :
    Heap.get (Heap.put h r d) j = Heap.get h j := by
  induction h generalizing r j with
  | nil => rfl
  | cons x t ih =>
    cases r with
    | zero =>
      cases j with
      | zero => exact absurd rfl hne
      | succ m => rfl
    | succ m =>
      cases j with
      | zero => rfl
      | succ n =>
        simpa [Heap.get, Heap.put, List.getD] using
          ih m n (fun he => hne (by rw [he]))

@[simp] theorem Heap.length_put (h : Heap) (r : Nat) (d : DataFrame) :
    (Heap.put h r d).length = h.length := by
  simp [Heap.put]

/-- **C8.** `validate_data` never modifies the frame passed in by its
caller: run over the explicit heap, all filtering (`dropna` with
`inplace=True`) and the added macro-stage column are applied to the
internal copy allocated by `df = _df.copy()`, so after the run the heap
still holds the caller's joined observation table unchanged at `ref` — and
the outputs equal those of the pure model on the unchanged frame. -/
theorem Heap.get_put_append (h : Heap) (d e : DataFrame) :
    Heap.get (Heap.put (h ++ [d]) h.length e) h.length = e :=
  Heap.get_put_self _ _ _ (by simp)

theorem Heap.get_append_put (h : Heap) (d e x : DataFrame) :
    Heap.get (Heap.put (h ++ [d]) h.length e ++ [x]) h.length = e := by
  rw [Heap.get_append_lt _ _ _ (by simp), Heap.get_put_append]

theorem Heap.get_append_append_put (h : Heap) (d e x y : DataFrame) :
    Heap.get ((Heap.put (h ++ [d]) h.length e ++ [x]) ++ [y]) h.length = e := by
  rw [Heap.get_append_lt _ _ _ (by simp; omega), Heap.get_append_put]

theorem Heap.get_append_append_mid (h : Heap) (d e x y : DataFrame) :
    Heap.get ((Heap.put (h ++ [d]) h.length e ++ [x]) ++ [y])
      (Heap.put (h ++ [d]) h.length e).length = x := by
  rw [Heap.get_append_lt _ _ _ (by simp), Heap.get_append_self]

theorem Heap.get_put_self_len (h2 : Heap) (h : Heap) (z : DataFrame)
    (hlen : h.length < h2.length) :
    Heap.get (Heap.put h2 h.length z) h.length = z :=
  Heap.get_put_self _ _ _ hlen

/-- **C8.** `validate_data` never modifies the frame passed in by its
caller: run over the explicit heap, all filtering (`dropna` with
`inplace=True`) and the added macro-stage column are applied to the
internal copy allocated by `df = _df.copy()`, so after the run the heap
still holds the caller's joined observation table unchanged at `ref` — and
the outputs equal those of the pure model on the unchanged frame. -/
theorem validate_data_no_caller_mutation (assign_stage : Value → Value)
    (h0 : Heap) (ref : Nat) (trait : String) (href : ref < h0.length) :
    (validate_dataS assign_stage h0 ref trait).1.get ref = h0.get ref
    ∧ (validate_dataS assign_stage h0 ref trait).2
        = validate_data assign_stage (h0.get ref) trait := by
  constructor
  · simp only [validate_dataS, Heap.alloc]
    rw [Heap.get_put_ne _ _ _ _ (Nat.ne_of_lt href),
      Heap.get_append_lt _ _ _ (by simp [Heap.put]; try omega),
      Heap.get_append_lt _ _ _ (by simp [Heap.put]; try omega),
      Heap.get_put_ne _ _ _ _ (Nat.ne_of_lt href),
      Heap.get_append_lt _ _ _ href]
  · simp only [validate_dataS, validate_data, Heap.alloc,
      Heap.get_append_self, Heap.get_put_append, Heap.get_append_put,
      Heap.get_append_append_put, Heap.get_append_append_mid]
    rw [Heap.get_put_self_len _ _ _ (by simp [Heap.put]; try omega)]

/-- Witness for C8: on a one-frame heap the caller's frame is unchanged. -/
theorem validate_data_no_caller_mutation_witness :
    (validate_dataS (fun v => v)
        [⟨["cab", "Macro-Stage"], [[("cab", Value.num 1),
          ("Macro-Stage", Value.str "S1")]]⟩] 0 "cab").1.get 0
      = Heap.get [⟨["cab", "Macro-Stage"], [[("cab", Value.num 1),
          ("Macro-Stage", Value.str "S1")]]⟩] 0 :=
  (validate_data_no_caller_mutation (fun v => v)
    [⟨["cab", "Macro-Stage"], [[("cab", Value.num 1),
      ("Macro-Stage", Value.str "S1")]]⟩] 0 "cab" (by decide)).1
